import Mathlib

/-!
Verification development for the template data-acquisition program
(`experiment.py`, `utilities.py`, `plotter.py`).

The definitions below are shallow embeddings of the Python source:

* `varGridIteratorHelper` embeds `Experiment._varGridIteratorHelper`
  (`experiment.py:400-408`), the depth-first generator over the variable
  lists.  The Python generator carries a growing `stack` prefix and recurses
  on the next variable list; the embedding recurses on the list of remaining
  variable lists and conses the chosen value onto every tuple produced by the
  recursive call, which yields the same sequence of tuples in the same order.
* Values stored in variable domains are kept abstract (`α`); the program
  stores Python floats/ints but no claim depends on their arithmetic.
-/

namespace Sweep

/-- Embedding of `Experiment._varGridIteratorHelper`: the DFS enumeration of
the Cartesian product of the variable lists, last list innermost. -/
def varGridIteratorHelper {α : Type} : List (List α) → List (List α)
  | [] => [[]]
  | l :: ls => l.flatMap fun x => (varGridIteratorHelper ls).map fun t => x :: t

/-- Embedding of `Experiment._varGridIterator`, which just starts the helper
with an empty stack. -/
def varGridIterator {α : Type} (varLists : List (List α)) : List (List α) :=
  varGridIteratorHelper varLists

/-- A batch of sample rows (`varArray`/`dataArray`): first dimension
observations, second dimension features. -/
abbrev Batch := List (List Int)

/-- A value stored in or read from an instrument attribute: Python scalars
versus iterables (`hasattr(x, '__iter__')` distinguishes them in the source). -/
inductive AttrVal : Type where
  | scalar (x : Int)
  | vector (xs : List Int)
deriving DecidableEq, Repr

/-- Embedding of the batch-pulling loop body of `Experiment.measure`
(`experiment.py:249-267`).  Each iteration first pulls `pts` tuples from the
remaining grid — in the source the pull
`np.array([next(varGridIter) for _ in range(self._ptsPerMeasure)])` raises
`StopIteration` out of the list comprehension as soon as fewer than `pts`
tuples remain, which ends the loop (first branch; the tuples consumed by the
partial pull are discarded with it).  Then the stop flag is polled (`stop k`
is the value of `_keyboardListener.stopFlag` observed at iteration `k`): if
set, `_completed` becomes `False` and the loop breaks; otherwise the batch is
processed and appended to the accumulated results.  The returned pair is
(`self._results` as row list, `self._completed`). -/
def measureLoop {α : Type} (stop : Nat → Bool) (pts : Nat) (hpts : 0 < pts)
    (k : Nat) (rem acc : List (List α)) : List (List α) × Bool :=
  if h : rem.length < pts then (acc, true)
  else if stop k then (acc, false)
  else measureLoop stop pts hpts (k + 1) (rem.drop pts) (acc ++ rem.take pts)
termination_by rem.length
decreasing_by simp only [List.length_drop]; omega

/-- Embedding of `Experiment.measure` run against a fully evaluated grid.
The constructor clamps `ptsPerMeasure` with `max(1, int(ptsPerMeasure))`
(`experiment.py:116`), which also supplies the positivity proof. -/
def measure {α : Type} (stop : Nat → Bool) (ptsPerMeasure : Nat)
    (grid : List (List α)) : List (List α) × Bool :=
  measureLoop stop (max 1 ptsPerMeasure)
    (Nat.lt_of_lt_of_le Nat.one_pos (Nat.le_max_left 1 ptsPerMeasure)) 0 grid []

/-- `Experiment.measure` drawing its batches from `_varGridIterator`. -/
def measureRun {α : Type} (stop : Nat → Bool) (ptsPerMeasure : Nat)
    (varLists : List (List α)) : List (List α) × Bool :=
  measure stop ptsPerMeasure (varGridIterator varLists)

/-- Python `range(a, b)` over integers. -/
def pyRange (a b : Int) : List Int := (List.range (b - a).toNat).map fun i => a + i

/-- Embedding of `Experiment._generateNewLineIndices` (`experiment.py:429-442`).
`tmp` is `len(self._varLists[-1])`, `ptsCount` is the running global point
count `self._ptsCount`, and `dataLen` is `len(dataArray)`.  `Int.fdiv` and
`Int.fmod` match Python `//` and `%` semantics. -/
def generateNewLineIndices (tmp ptsCount dataLen : Int) : List Int :=
  let start0 := ptsCount.fdiv tmp
  let start := if ptsCount.fmod tmp ≠ 0 then start0 + 1 else start0
  let end0 := (ptsCount + dataLen).fdiv tmp
  let end1 := if (ptsCount + dataLen).fmod tmp = 0 then end0 - 1 else end0
  [0] ++ (pyRange start (end1 + 1)).map (fun x => x * tmp - ptsCount) ++ [dataLen]

/-- Embedding of the segment-emission loop of `Experiment._updatePlotData`
(`experiment.py:410-427`).  Each emitted element is
(`NEW_LINE_FLAG present` — i.e. `i >= 2` —, slice start, slice end); segments
with `start == end` are skipped (`continue`). -/
def updatePlotDataSegments (tmp ptsCount dataLen : Int) :
    List (Bool × Int × Int) :=
  let idx := generateNewLineIndices tmp ptsCount dataLen
  (List.range' 1 (idx.length - 1)).filterMap fun i =>
    let s := idx.getD (i - 1) 0
    let e := idx.getD i 0
    if s = e then none else some (decide (2 ≤ i), s, e)

/-- Column `i` of a batch (`varArray[:, i]`). -/
def column (batch : Batch) (i : Nat) : List Int := batch.map fun r => r.getD i 0

/-- `varArray.shape == self._preVarArray.shape`: both arrays always have
`len(self._variables)` columns (their rows are tuples from the grid), so the
shapes agree exactly when the row counts do. -/
def sameShape (a b : Batch) : Bool := a.length == b.length

/-- The skip test of `Experiment._setVariblesSingleThread`
(`experiment.py:313-317`): skip the set call for variable `i` when a previous
batch exists, the shapes match, column `i` is unchanged in every row, and
`self._skipVarSetIfSame[i]` is set. -/
def shouldSkipVar (skipVarSetIfSame : List Bool) (preVarArray : Option Batch)
    (varArray : Batch) (i : Nat) : Bool :=
  match preVarArray with
  | none => false
  | some pre =>
      sameShape varArray pre && column varArray i == column pre i &&
        skipVarSetIfSame.getD i false

/-- The value passed to the set call:
`val = varArray[:, i]; val = val[0] if len(val) == 1 else val`. -/
def colVal (varArray : Batch) (i : Nat) : AttrVal :=
  let val := column varArray i
  if val.length == 1 then AttrVal.scalar (val.getD 0 0) else AttrVal.vector val

/-- The indices `i` whose variable is actually set (not skipped) by one call
of `Experiment._setVariblesSingleThread`, in loop order. -/
def setCallIndices (vars : List String) (skipVarSetIfSame : List Bool)
    (preVarArray : Option Batch) (varArray : Batch) : List Nat :=
  (List.range vars.length).filter fun i =>
    ! shouldSkipVar skipVarSetIfSame preVarArray varArray i

/-- The sequence of `setattr(self, variable, val)` calls performed by one call
of `Experiment._setVariblesSingleThread`, in loop order. -/
def setCalls (vars : List String) (skipVarSetIfSame : List Bool)
    (preVarArray : Option Batch) (varArray : Batch) :
    List (String × AttrVal) :=
  (setCallIndices vars skipVarSetIfSame preVarArray varArray).map fun i =>
    (vars.getD i "", colVal varArray i)

/-- `currRlt = [currRlt] if not hasattr(currRlt, '__iter__') else currRlt`
(`experiment.py:366`): a scalar getter result is wrapped into a one-element
list; an iterable result is used as is. -/
def wrapResponse (v : AttrVal) : List Int :=
  match v with
  | AttrVal.scalar x => [x]
  | AttrVal.vector xs => xs

/-- Embedding of `Experiment._getResponsesSingleThread`
(`experiment.py:362-369`): `results` are the values returned by the response
getters in declared order; the output is the list `rlt` of per-response
columns (the rows of `rltArray`, i.e. the columns of `rltArray.T`). -/
def getResponsesSingleThread (results : List AttrVal) : List (List Int) :=
  results.map wrapResponse

/-- Instrument state: each attribute name holds the last value set (or the
value a deterministic, side-effect-free getter produces). -/
def InstrState : Type := String → AttrVal

/-- `setattr(self, name, v)` for a side-effect-free setter: only attribute
`name` changes. -/
def setAttr (s : InstrState) (name : String) (v : AttrVal) : InstrState :=
  fun n => if n = name then v else s n

/-- Perform a sequence of set calls in order. -/
def applyCalls (calls : List (String × AttrVal)) (s : InstrState) : InstrState :=
  calls.foldl (fun t c => setAttr t c.1 c.2) s

/-- Read every response getter in declared order and wrap scalars, as both
`_getResponsesSingleThread` and `_getResponsesMultiThread` do. -/
def readResponses (responses : List String) (s : InstrState) :
    List (List Int) :=
  responses.map fun r => wrapResponse (s r)

/-- The measurement loop over a list of batches in inline (single-threaded)
I/O mode: per iteration, `_setVariblesSingleThread` then the response reads.
Records, per iteration, the batch and the assembled response columns. -/
def runSingleThread (vars : List String) (skipVarSetIfSame : List Bool)
    (responses : List String) :
    List Batch → Option Batch → InstrState → List (Batch × List (List Int))
  | [], _, _ => []
  | b :: bs, pre, s =>
    let s2 := applyCalls (setCalls vars skipVarSetIfSame pre b) s
    (b, readResponses responses s2) ::
      runSingleThread vars skipVarSetIfSame responses bs (some b) s2

/-- The measurement loop in threaded I/O mode.  `_setVariblesMultiThread`
enqueues exactly the non-skipped values (same skip test as inline mode) to
one persistent worker per variable and busy-waits until the shared counter
shows that all of them have been `setattr`-ed; the workers therefore perform
the same set calls in some scheduler-chosen order, modelled by `sched pre b`
(constrained to a permutation of `setCalls` in the equivalence theorem).
`_getResponsesMultiThread` runs only after that barrier and assembles
`getattr` results per response name in declared order, which is
`readResponses` on the post-barrier state. -/
def runMultiThread (responses : List String)
    (sched : Option Batch → Batch → List (String × AttrVal)) :
    List Batch → Option Batch → InstrState → List (Batch × List (List Int))
  | [], _, _ => []
  | b :: bs, pre, s =>
    let s2 := applyCalls (sched pre b) s
    (b, readResponses responses s2) ::
      runMultiThread responses sched bs (some b) s2

/-- `dataArray = np.concatenate((varArray, self._getResponses()), axis=1)`:
row `j` of the iteration's block is the variable tuple followed by entry `j`
of every response column. -/
def rowsOfIteration (b : Batch) (cols : List (List Int)) : List (List Int) :=
  (List.range b.length).map fun j => b.getD j [] ++ cols.map fun c => c.getD j 0

/-- The ResultTable: all iteration blocks row-concatenated in arrival order
(`self._results = np.concatenate((self._results, dataArray))`). -/
def resultTable (iters : List (Batch × List (List Int))) : List (List Int) :=
  iters.flatMap fun it => rowsOfIteration it.1 it.2

/-- Python dict assignment `d[k] = v` on an insertion-ordered association
list: overwrite in place if the key exists, else append. -/
def dictInsert (d : List (String × String)) (k v : String) :
    List (String × String) :=
  if d.any (fun kv => kv.1 == k) then
    d.map fun kv => if kv.1 == k then (k, v) else kv
  else d ++ [(k, v)]

/-- Python `str` on a bool, as interpolated by `"{} = {}".format`. -/
def pyStr (b : Bool) : String := if b then "True" else "False"

/-- Embedding of `Experiment._getParametersSingleThread`
(`experiment.py:221-225`): read back every parameter key via `getattr`. -/
def getParametersSingleThread {V : Type} (parameters : List (String × V))
    (readAttr : String → V) : List (String × V) :=
  parameters.map fun kv => (kv.1, readAttr kv.1)

/-- Python dict lookup `self.parameters[parameter]`. -/
def paramsLookup {V : Type} (parameters : List (String × V)) (k : String) :
    Option V :=
  (parameters.find? fun kv => kv.1 == k).map fun kv => kv.2

/-- Embedding of `Experiment._generateHeader` (`experiment.py:474-489`),
producing the header dict: one `str(value)` entry per parameter, a second
`parameter + ' (Read)'` entry for every read-back value that differs from the
set value, and finally the `completed` flag.  `strV` is Python `str` on the
parameter value type. -/
def generateHeaderDict {V : Type} [DecidableEq V] (strV : V → String)
    (parameters : List (String × V)) (readAttr : String → V)
    (completed : Bool) : List (String × String) :=
  let d1 := parameters.foldl (fun d kv => dictInsert d kv.1 (strV kv.2)) []
  let parametersRead := getParametersSingleThread parameters readAttr
  let d2 := parametersRead.foldl
    (fun d kv =>
      if paramsLookup parameters kv.1 = some kv.2 then d
      else dictInsert d (kv.1 ++ " (Read)") (strV kv.2)) d1
  dictInsert d2 "completed" (pyStr completed)

/-- Embedding of `FileIO.generateHeader` (`utilities.py:83-89`): one
`# key = value` line per header entry, then a blank line and the
tab-separated column names. -/
def fileIOGenerateHeader (header : List (String × String))
    (columnNames : List String) : String :=
  String.intercalate "\r\n" (header.map fun kv => "# " ++ kv.1 ++ " = " ++ kv.2)
    ++ "\r\n\r\n" ++ String.intercalate "\t" columnNames

/-- Number of header entries carrying key `k`. -/
def countKey (d : List (String × String)) (k : String) : Nat :=
  (d.filter fun kv => kv.1 == k).length

/-- Embedding of `Experiment._validateInputs` (`experiment.py:188-194`), in
source order: absolute base path, parameters-is-a-dict, then
`len(self._variables) != len(self._varLists)`.  `isAbsBasePath` models
`os.path.isabs(self._basePath)` and `parametersIsDict` models
`isinstance(self.parameters, dict)`. -/
def validateInputs (isAbsBasePath parametersIsDict : Bool)
    (numVariables numVarLists : Nat) : Except String Unit :=
  if !isAbsBasePath then
    Except.error "The given base path is not an absolute path"
  else if !parametersIsDict then
    Except.error "The given parameter inputs are not in the form of dictionary"
  else if numVariables ≠ numVarLists then
    Except.error "The given variables and their settings are of different lengths"
  else Except.ok ()

/-- The run state created by the `Initialization` block of
`Experiment.__init__` (`experiment.py:140-145`). -/
structure RunState where
  completed : Bool
  preVarArray : Option Batch
  ptsCount : Nat
  skipVarSetIfSame : List Bool
deriving DecidableEq, Repr

/-- Embedding of the construction path of `Experiment.__init__` relevant to
input validation: inputs are memorized, `_validateInputs` runs and raises
before any run state exists, and only then is the run state initialized
(with an empty skip-flag list replaced by all-`False` defaults,
`experiment.py:144-145`). -/
def experimentInit (isAbsBasePath parametersIsDict : Bool)
    (vars : List String) (varLists : List (List Int))
    (skipVarSetIfSame : List Bool) : Except String RunState := do
  _ ← validateInputs isAbsBasePath parametersIsDict vars.length
    varLists.length
  pure { completed := true, preVarArray := none, ptsCount := 0,
         skipVarSetIfSame :=
           if skipVarSetIfSame.isEmpty then vars.map fun _ => false
           else skipVarSetIfSame }

/-- A Python value that may be `None` or a bool — the possible arguments of
the `KeyboardListener` constructor call in `Experiment.__init__`. -/
inductive PyVal : Type where
  | none
  | bool (b : Bool)
deriving DecidableEq, Repr

/-- The state built by `KeyboardListener.__init__` (`utilities.py:22-27`). -/
structure KeyboardListenerState where
  stopFlag : Bool
  pauseFlag : Bool
  saveFlag : Bool
  lock : PyVal
  plotter : PyVal
deriving DecidableEq, Repr

/-- `KeyboardListener.__init__(self, lock=Lock(), plotterObj=None,
saveFlag=True)`: flags start `False`/`False`/`saveFlag`, and the second
positional argument lands in `plotterObj`. -/
def keyboardListenerInit (lock plotterObj : PyVal) (saveFlag : Bool) :
    KeyboardListenerState :=
  { stopFlag := false, pauseFlag := false, saveFlag := saveFlag,
    lock := lock, plotter := plotterObj }

/-- The call `KeyboardListener(None, save)` in `Experiment.__init__`
(`experiment.py:148`): two positional arguments, so `lock=None`,
`plotterObj=save`, and `saveFlag` keeps its default `True`. -/
def experimentKeyboardListener (save : Bool) : KeyboardListenerState :=
  keyboardListenerInit PyVal.none (PyVal.bool save) true

/-- The save-toggle branch of `KeyboardListener._onRelease`
(`utilities.py:54-58`). -/
def onReleaseToggleSave (kb : KeyboardListenerState) : KeyboardListenerState :=
  { kb with saveFlag := !kb.saveFlag }

/-- `Experiment.save` (`experiment.py:451-459`) persists the log and data
exactly when `self._keyboardListener.saveFlag` holds. -/
def experimentSaveRuns (kb : KeyboardListenerState) : Bool := kb.saveFlag

theorem varGridIteratorHelper_length {α : Type} (ls : List (List α)) :
    (varGridIteratorHelper ls).length = (ls.map List.length).prod := by
  induction ls with
  | nil => simp [varGridIteratorHelper]
  | cons l ls ih =>
    simp only [varGridIteratorHelper, List.map_cons, List.prod_cons]
    induction l with
    | nil => simp
    | cons a t iht =>
      simp only [List.flatMap_cons, List.length_append, List.length_map, ih,
        List.length_cons, iht]
      ring

/-- Indexing a `flatMap` whose blocks all have the same length `m`:
position `k` falls in block `k / m` at offset `k % m`. -/
theorem flatMap_getD {α β : Type} (l : List α) (f : α → List β) (m : Nat)
    (hm : ∀ x ∈ l, (f x).length = m) (k : Nat) (hk : k < l.length * m)
    (d : β) (d0 : α) :
    (l.flatMap f).getD k d = (f (l.getD (k / m) d0)).getD (k % m) d := by
  induction l generalizing k with
  | nil => simp at hk
  | cons a t ih =>
    have hm0 : 0 < m := by
      rcases Nat.eq_zero_or_pos m with h | h
      · subst h; omega
      · exact h
    have hfa : (f a).length = m := hm a (List.mem_cons_self a t)
    rw [List.flatMap_cons]
    by_cases hkm : k < m
    · have h1 : k / m = 0 := Nat.div_eq_of_lt hkm
      have h2 : k % m = k := Nat.mod_eq_of_lt hkm
      rw [h1, h2, List.getD_cons_zero]
      exact List.getD_append _ _ _ _ (by omega)
    · obtain ⟨j, rfl⟩ : ∃ j, k = j + m := ⟨k - m, by omega⟩
      rw [Nat.add_div_right _ hm0, Nat.add_mod_right, List.getD_cons_succ]
      have hrec := ih (fun x hx => hm x (List.mem_cons_of_mem a hx)) j
        (by rw [List.length_cons, Nat.succ_mul] at hk; omega)
      rw [← hrec, List.getD_append_right _ _ _ _ (by omega), hfa,
        Nat.add_sub_cancel]

theorem varGridIteratorHelper_singleton {α : Type} (cs : List α) :
    varGridIteratorHelper [cs] = cs.map fun x => [x] := by
  induction cs with
  | nil => simp [varGridIteratorHelper]
  | cons a t ih =>
    simp [varGridIteratorHelper] at ih ⊢
    exact ih

theorem map_cons_getD {α : Type} (x : α) (L : List (List α)) (i : Nat)
    (hi : i < L.length) :
    (L.map fun t => x :: t).getD i [] = x :: L.getD i [] := by
  induction L generalizing i with
  | nil => simp at hi
  | cons h t ih =>
    cases i with
    | zero => simp
    | succ n =>
      simp only [List.map_cons, List.getD_cons_succ]
      exact ih n (by simpa using hi)

theorem map_singleton_getD {α : Type} (cs : List α) (i : Nat)
    (hi : i < cs.length) (da : α) :
    (cs.map fun x => [x]).getD i [] = [cs.getD i da] := by
  induction cs generalizing i with
  | nil => simp at hi
  | cons h t ih =>
    cases i with
    | zero => simp
    | succ n =>
      simp only [List.map_cons, List.getD_cons_succ]
      exact ih n (by simpa using hi)

/-- **C3.** The grid iterator enumerates exactly the Cartesian product of the
domains in lexicographic order with the last variable varying fastest: it
yields `a*b*c` tuples for domain sizes `[a,b,c]`, and the tuple at flat
position `k` is `[as[k/(b*c)], bs[(k/c) % b], cs[k % c]]` — so the last
coordinate cycles on every successive tuple and the first changes every `b*c`
tuples. -/
theorem varGridIterator_enumeration {α : Type} (as bs cs : List α) (da : α) :
    (varGridIterator [as, bs, cs]).length =
      as.length * (bs.length * cs.length) ∧
    (∀ k, k < as.length * (bs.length * cs.length) →
      (varGridIterator [as, bs, cs]).getD k [] =
        [as.getD (k / (bs.length * cs.length)) da,
         bs.getD (k / cs.length % bs.length) da,
         cs.getD (k % cs.length) da]) := by
  have hlen2 : (varGridIteratorHelper [bs, cs]).length =
      bs.length * cs.length := by
    rw [varGridIteratorHelper_length]; simp
  have hlen1 : (varGridIteratorHelper [cs]).length = cs.length := by
    rw [varGridIteratorHelper_length]; simp
  constructor
  · show (varGridIteratorHelper [as, bs, cs]).length = _
    rw [varGridIteratorHelper_length]; simp [Nat.mul_assoc]
  · intro k hk
    have hbc0 : 0 < bs.length * cs.length := by
      rcases Nat.eq_zero_or_pos (bs.length * cs.length) with h | h
      · rw [h, Nat.mul_zero] at hk; omega
      · exact h
    have hc0 : 0 < cs.length := by
      rcases Nat.eq_zero_or_pos cs.length with h | h
      · rw [h, Nat.mul_zero] at hbc0; omega
      · exact h
    have hmod1 : k % (bs.length * cs.length) < bs.length * cs.length :=
      Nat.mod_lt _ hbc0
    have hmod2 : k % (bs.length * cs.length) % cs.length < cs.length :=
      Nat.mod_lt _ hc0
    show (varGridIteratorHelper [as, bs, cs]).getD k [] = _
    rw [show varGridIteratorHelper [as, bs, cs] =
        as.flatMap (fun x => (varGridIteratorHelper [bs, cs]).map
          fun t => x :: t) from rfl]
    rw [flatMap_getD as _ (bs.length * cs.length)
      (fun x _ => by simp [hlen2]) k hk [] da]
    rw [map_cons_getD _ _ _ (by rw [hlen2]; exact hmod1)]
    rw [show varGridIteratorHelper [bs, cs] =
        bs.flatMap (fun x => (varGridIteratorHelper [cs]).map
          fun t => x :: t) from rfl]
    rw [flatMap_getD bs _ cs.length (fun x _ => by simp [hlen1]) _
      hmod1 [] da]
    rw [map_cons_getD _ _ _ (by rw [hlen1]; exact hmod2)]
    rw [varGridIteratorHelper_singleton]
    rw [map_singleton_getD cs _ hmod2 da]
    rw [show k % (bs.length * cs.length) % cs.length = k % cs.length from
      Nat.mod_mod_of_dvd k ⟨bs.length, Nat.mul_comm _ _⟩]
    rw [show k % (bs.length * cs.length) / cs.length =
        k / cs.length % bs.length from by
      rw [Nat.mul_comm bs.length cs.length]
      exact Nat.mod_mul_right_div_self k cs.length bs.length]

/-- Witness for C3 at a concrete grid: domains of sizes `[2,1,2]`, position
`3` holds the tuple `[20, 30, 50]`. -/
theorem varGridIterator_enumeration_witness :
    (varGridIterator [[(10 : Int), 20], [30], [40, 50]]).length = 4 ∧
    (varGridIterator [[(10 : Int), 20], [30], [40, 50]]).getD 3 [] =
      [20, 30, 50] := by
  have h := varGridIterator_enumeration [(10 : Int), 20] [30] [40, 50] 0
  refine ⟨by simpa using h.1, ?_⟩
  have h2 := h.2 3 (by decide)
  simpa using h2

/-- If the stop flag never fires, the measure loop processes every full batch
of `pts` tuples and ends, completed, at the `StopIteration` of the first
partial pull: it returns the first `pts * (rem.length / pts)` rows. -/
theorem measureLoop_noStop {α : Type} (stop : Nat → Bool) (pts : Nat)
    (hpts : 0 < pts) (hstop : ∀ j, stop j = false) (n : Nat) :
    ∀ (rem acc : List (List α)) (k), rem.length ≤ n →
      measureLoop stop pts hpts k rem acc =
        (acc ++ rem.take (pts * (rem.length / pts)), true) := by
  induction n with
  | zero =>
    intro rem acc k hn
    have hlt : rem.length < pts := by omega
    rw [measureLoop, dif_pos hlt, Nat.div_eq_of_lt hlt, Nat.mul_zero,
      List.take_zero, List.append_nil]
  | succ n ih =>
    intro rem acc k hn
    by_cases hlt : rem.length < pts
    · rw [measureLoop, dif_pos hlt, Nat.div_eq_of_lt hlt, Nat.mul_zero,
        List.take_zero, List.append_nil]
    · have hrec := ih (rem.drop pts) (acc ++ rem.take pts) (k + 1)
        (by rw [List.length_drop]; omega)
      rw [measureLoop, dif_neg hlt, hstop k]
      simp only [Bool.false_eq_true, if_false]
      rw [hrec, List.length_drop, List.append_assoc, ← List.take_add]
      have harith : pts + pts * ((rem.length - pts) / pts) =
          pts * (rem.length / pts) := by
        obtain ⟨M, hM⟩ : ∃ M, rem.length = M + pts := ⟨rem.length - pts, by omega⟩
        rw [hM, Nat.add_sub_cancel, Nat.add_div_right _ hpts, Nat.mul_succ]
        omega
      rw [harith]

/-- If the stop flag is first observed `true` at the `d`-th iteration from
the current one and the grid still holds enough tuples for that iteration's
pull, the loop stops with `completed = False` after the `d` finished
iterations. -/
theorem measureLoop_stopAt {α : Type} (stop : Nat → Bool) (pts : Nat)
    (hpts : 0 < pts) :
    ∀ (d k : Nat) (rem acc : List (List α)),
      stop (k + d) = true → (∀ j, j < d → stop (k + j) = false) →
      d * pts + pts ≤ rem.length →
      measureLoop stop pts hpts k rem acc =
        (acc ++ rem.take (d * pts), false) := by
  intro d
  induction d with
  | zero =>
    intro k rem acc h1 h2 h3
    rw [Nat.add_zero] at h1
    rw [measureLoop, dif_neg (by omega), h1]
    simp
  | succ d ih =>
    intro k rem acc h1 h2 h3
    have hsm : (d + 1) * pts = d * pts + pts := Nat.succ_mul d pts
    have h0 : stop k = false := by
      have := h2 0 (by omega)
      rwa [Nat.add_zero] at this
    rw [measureLoop, dif_neg (by omega), h0]
    simp only [Bool.false_eq_true, if_false]
    have hrec := ih (k + 1) (rem.drop pts) (acc ++ rem.take pts)
      (by rw [show k + 1 + d = k + (d + 1) from by omega]; exact h1)
      (fun j hj => by
        rw [show k + 1 + j = k + (j + 1) from by omega]
        exact h2 (j + 1) (by omega))
      (by rw [List.length_drop]; omega)
    rw [hrec, List.append_assoc, ← List.take_add]
    have harith : pts + d * pts = (d + 1) * pts := by omega
    rw [harith]

/-- A Python dict assignment always leaves the assigned pair in the dict. -/
theorem mem_dictInsert_self (d : List (String × String)) (k v : String) :
    (k, v) ∈ dictInsert d k v := by
  unfold dictInsert
  by_cases hany : d.any (fun kv => kv.1 == k)
  · rw [if_pos hany]
    obtain ⟨kv, hkv, hk⟩ := List.any_eq_true.mp hany
    refine List.mem_map.mpr ⟨kv, hkv, ?_⟩
    rw [if_pos hk]
  · rw [if_neg hany]
    exact List.mem_append_right _ (List.mem_singleton.mpr rfl)

/-- **C1.** Evaluation at the failing input: with `ptsPerMeasure = 3` and a
single variable over the 5-value domain `[0,1,2,3,4]`, the run ends with only
the 3 rows of the first full batch — the final undersized batch `[[3],[4]]`
is consumed by the partial pull and discarded when its `StopIteration`
propagates, and `_completed` is still `True` — even though the full grid has
5 tuples.  This contradicts the claim (and `measure`'s own contract of
measuring the entire variable space): the short final batch is silently
dropped. -/
theorem measureRun_drops_final_partial_batch :
    measureRun (fun _ => false) 3 [[(0 : Int), 1, 2, 3, 4]] =
      ([[(0 : Int)], [1], [2]], true) ∧
    (varGridIterator [[(0 : Int), 1, 2, 3, 4]]).length = 5 := by
  constructor
  · have h := measureLoop_noStop (fun _ => false) (max 1 3)
      (Nat.lt_of_lt_of_le Nat.one_pos (Nat.le_max_left 1 3)) (fun _ => rfl)
      (varGridIterator [[(0 : Int), 1, 2, 3, 4]]).length
      (varGridIterator [[(0 : Int), 1, 2, 3, 4]]) [] 0 le_rfl
    exact h.trans (by decide)
  · decide

/-- **C4** (amended).  (1) If the stop flag is first observed `true` at
iteration `k0` and the grid still holds a full batch for that iteration's
pull, the loop ends with `completed = False` and the ResultTable holds
exactly the `k0` finished iterations' rows — fewer than the full
Cartesian-product count.  (2) If stop is never observed, the run completes
(`completed = True`) with `pts * (N / pts)` rows, which is the full
Cartesian-product count exactly when the batch size divides it (the final
undersized batch is dropped, see C1).  (3) The `completed` flag is always
recorded in the generated header. -/
theorem measureRun_stop_behavior {α : Type} (varLists : List (List α))
    (ptsPerMeasure : Nat) :
    (∀ (stop : Nat → Bool) (k0 : Nat),
      stop k0 = true → (∀ j, j < k0 → stop j = false) →
      k0 * max 1 ptsPerMeasure + max 1 ptsPerMeasure ≤
        (varGridIterator varLists).length →
      measureRun stop ptsPerMeasure varLists =
        ((varGridIterator varLists).take (k0 * max 1 ptsPerMeasure), false) ∧
      k0 * max 1 ptsPerMeasure < (varGridIterator varLists).length) ∧
    (∀ stop : Nat → Bool, (∀ j, stop j = false) →
      measureRun stop ptsPerMeasure varLists =
        ((varGridIterator varLists).take
          (max 1 ptsPerMeasure *
            ((varGridIterator varLists).length / max 1 ptsPerMeasure)),
          true)) ∧
    (∀ (strV : Int → String) (parameters : List (String × Int))
      (readAttr : String → Int),
      ("completed", pyStr true) ∈
        generateHeaderDict strV parameters readAttr true) := by
  have hpts1 : 1 ≤ max 1 ptsPerMeasure := Nat.le_max_left 1 ptsPerMeasure
  refine ⟨?_, ?_, ?_⟩
  · intro stop k0 h1 h2 h3
    have h := measureLoop_stopAt stop (max 1 ptsPerMeasure)
      (Nat.lt_of_lt_of_le Nat.one_pos (Nat.le_max_left 1 ptsPerMeasure))
      k0 0 (varGridIterator varLists) []
      (by rwa [Nat.zero_add]) (fun j hj => by rw [Nat.zero_add]; exact h2 j hj)
      h3
    constructor
    · exact h.trans (by rw [List.nil_append])
    · omega
  · intro stop hstop
    have h := measureLoop_noStop stop (max 1 ptsPerMeasure)
      (Nat.lt_of_lt_of_le Nat.one_pos (Nat.le_max_left 1 ptsPerMeasure))
      hstop (varGridIterator varLists).length
      (varGridIterator varLists) [] 0 le_rfl
    exact h.trans (by rw [List.nil_append])
  · intro strV parameters readAttr
    exact mem_dictInsert_self _ _ _

/-- Witness for C4 at concrete runs over the 6-value domain `[0..5]` with
batch size 2: stop first seen at iteration 1 gives 2 rows and
`completed = False`; no stop gives all 6 rows and `completed = True`. -/
theorem measureRun_stop_behavior_witness :
    (measureRun (fun j => decide (j = 1)) 2 [[(0 : Int), 1, 2, 3, 4, 5]] =
      ((varGridIterator [[(0 : Int), 1, 2, 3, 4, 5]]).take (1 * max 1 2),
        false) ∧
      1 * max 1 2 < (varGridIterator [[(0 : Int), 1, 2, 3, 4, 5]]).length) ∧
    measureRun (fun _ => false) 2 [[(0 : Int), 1, 2, 3, 4, 5]] =
      ((varGridIterator [[(0 : Int), 1, 2, 3, 4, 5]]).take
        (max 1 2 *
          ((varGridIterator [[(0 : Int), 1, 2, 3, 4, 5]]).length / max 1 2)),
        true) ∧
    ("completed", pyStr true) ∈
      generateHeaderDict toString [("p1", (1 : Int))] (fun _ => 1) true := by
  have h := measureRun_stop_behavior [[(0 : Int), 1, 2, 3, 4, 5]] 2
  exact ⟨h.1 (fun j => decide (j = 1)) 1 (by decide)
      (fun j hj => by simp; omega) (by decide),
    h.2.1 (fun _ => false) (fun _ => rfl),
    h.2.2 toString [("p1", (1 : Int))] (fun _ => 1)⟩

/-- Counterexample to C4 as stated: over the 4-value domain `[10,11,12,13]`
with batch size 3 and the stop flag never observed, the grid is exhausted
yet the ResultTable holds 3 rows, not the full Cartesian-product count 4
(while `completed` is still `True`). -/
theorem measureRun_full_count_counterexample :
    (measureRun (fun _ => false) 3 [[(10 : Int), 11, 12, 13]]).2 = true ∧
    (measureRun (fun _ => false) 3 [[(10 : Int), 11, 12, 13]]).1.length = 3 ∧
    (varGridIterator [[(10 : Int), 11, 12, 13]]).length = 4 := by
  have h := measureLoop_noStop (fun _ => false) (max 1 3)
    (Nat.lt_of_lt_of_le Nat.one_pos (Nat.le_max_left 1 3)) (fun _ => rfl)
    (varGridIterator [[(10 : Int), 11, 12, 13]]).length
    (varGridIterator [[(10 : Int), 11, 12, 13]]) [] 0 le_rfl
  have h2 : measureRun (fun _ => false) 3 [[(10 : Int), 11, 12, 13]] =
      ([[(10 : Int)], [11], [12]], true) := h.trans (by decide)
  rw [h2]
  exact ⟨rfl, rfl, rfl⟩

/-- Counterexample to C2 as stated: at `L = 3`, global count 0, batch of 7
points, the boundary list is not `[0,3,6,7]` and the first emitted segment
does carry the NEW_LINE sentinel (sentinel pattern `[true,true,true]`, not
`[false,true,true]`). -/
theorem updatePlotData_segments_counterexample :
    ¬ (generateNewLineIndices 3 0 7 = [0, 3, 6, 7] ∧
       (updatePlotDataSegments 3 0 7).map Prod.fst = [false, true, true]) := by
  decide

/-- **C2** (amended).  For `L = 3`, a 7-row batch at global count 0 yields
the boundary list `[0,0,3,6,7]`; the `i = 1` span `(0,0)` is empty and
skipped, and the three emitted segments are `(0,3)`, `(3,6)`, `(6,7)` —
sizes 3, 3, 1 — every one of them carrying the NEW_LINE sentinel (the only
sentinel-free slot is the skipped empty first span). -/
theorem updatePlotData_segments_first_batch :
    generateNewLineIndices 3 0 7 = [0, 0, 3, 6, 7] ∧
    updatePlotDataSegments 3 0 7 =
      [(true, 0, 3), (true, 3, 6), (true, 6, 7)] := by
  decide

/-- **C5.** With `skipFlags[i] = true`, a preceding batch of the same shape
and an unchanged column `i`, the set call for variable `i` is not performed
(0 occurrences in the performed-call index list); with `skipFlags[i] = false`
it is performed (at least once) for every batch, whatever the previous batch
was. -/
theorem setCalls_skip_semantics (vars : List String)
    (skipVarSetIfSame : List Bool) (pre b : Batch) (i : Nat)
    (hi : i < vars.length) :
    (skipVarSetIfSame.getD i false = true → sameShape b pre = true →
      column b i = column pre i →
      (setCallIndices vars skipVarSetIfSame (some pre) b).count i = 0) ∧
    (skipVarSetIfSame.getD i false = false →
      ∀ p : Option Batch,
        0 < (setCallIndices vars skipVarSetIfSame p b).count i) := by
  constructor
  · intro hflag hshape hcol
    have hskip : shouldSkipVar skipVarSetIfSame (some pre) b i = true := by
      simp only [shouldSkipVar, hshape, hflag, Bool.and_true, Bool.true_and]
      exact beq_iff_eq.mpr hcol
    rw [List.count_eq_zero]
    intro hmem
    have := List.of_mem_filter hmem
    rw [hskip] at this
    exact absurd this (by decide)
  · intro hflag p
    have hskip : shouldSkipVar skipVarSetIfSame p b i = false := by
      cases p with
      | none => rfl
      | some q =>
        show (sameShape b q && (column b i == column q i) &&
          skipVarSetIfSame.getD i false) = false
        rw [hflag, Bool.and_false]
    rw [List.count_pos_iff]
    exact List.mem_filter.mpr ⟨List.mem_range.mpr hi, by rw [hskip]; rfl⟩

/-- Witness for C5: variables `["a","b"]`, skip flags `[true,false]`,
previous batch `[[1,2]]`, current batch `[[1,3]]` (column 0 unchanged,
column 1 changed): variable 0 is skipped, variable 1 is set. -/
theorem setCalls_skip_semantics_witness :
    (setCallIndices ["a", "b"] [true, false] (some [[1, 2]]) [[1, 3]]).count 0
        = 0 ∧
    0 < (setCallIndices ["a", "b"] [true, false] (some [[1, 2]])
        [[1, 3]]).count 1 := by
  constructor
  · exact (setCalls_skip_semantics ["a", "b"] [true, false] [[1, 2]] [[1, 3]]
      0 (by decide)).1 (by decide) (by decide) (by decide)
  · exact (setCalls_skip_semantics ["a", "b"] [true, false] [[1, 2]] [[1, 3]]
      1 (by decide)).2 (by decide) (some [[1, 2]])

/-- Counterexample to C6 as stated: a skip-flag list of length 3 with a
single variable and a single domain passes construction without an error —
the skip-flags length is never validated. -/
theorem experimentInit_skipFlags_not_validated :
    experimentInit true true ["x"] [[1]] [true, false, true] =
      Except.ok { completed := true, preVarArray := none, ptsCount := 0,
                  skipVarSetIfSame := [true, false, true] } := by
  rfl

/-- **C6** (amended).  Construction fails exactly when the base path is not
absolute, the parameter set is not a mapping, or the variables and domains
lists have different lengths — each raised by `_validateInputs` before any
run state is created; a mismatched skip-flags length is not checked (an
empty list is merely replaced by all-`False` defaults). -/
theorem experimentInit_validation (isAbs isDict : Bool) (vs : List String)
    (vls : List (List Int)) (flags : List Bool) :
    ((experimentInit isAbs isDict vs vls flags).isOk = true ↔
      isAbs = true ∧ isDict = true ∧ vs.length = vls.length) ∧
    (isAbs = true → isDict = true → vs.length = vls.length →
      experimentInit isAbs isDict vs vls flags =
        Except.ok { completed := true, preVarArray := none, ptsCount := 0,
                    skipVarSetIfSame :=
                      if flags.isEmpty then vs.map fun _ => false
                      else flags }) := by
  cases isAbs <;> cases isDict <;>
    by_cases h : vs.length = vls.length <;>
    simp [experimentInit, validateInputs, h, Except.isOk, Except.toBool,
      Bind.bind, Except.bind, pure, Except.pure]

/-- Witness for C6: valid inputs (absolute path, dict parameters, matching
lengths, empty skip flags) construct the initial run state with the skip
flags defaulted to all-`False`. -/
theorem experimentInit_validation_witness :
    experimentInit true true ["x", "y"] [[1], [2]] [] =
      Except.ok { completed := true, preVarArray := none, ptsCount := 0,
                  skipVarSetIfSame := [false, false] } := by
  have h := (experimentInit_validation true true ["x", "y"] [[1], [2]] []).2
    rfl rfl (by decide)
  exact h.trans rfl

/-- Helper: the defaults of `getD` line up with `wrapResponse`, so indexing
the assembled response columns commutes with the wrap. -/
theorem getD_map_wrapResponse (results : List AttrVal) (i : Nat) :
    (results.map wrapResponse).getD i [] =
      wrapResponse (results.getD i (AttrVal.vector [])) := by
  induction results generalizing i with
  | nil => rfl
  | cons a t ih =>
    cases i with
    | zero => rfl
    | succ n => simp only [List.map_cons, List.getD_cons_succ]; exact ih n

/-- Counterexample to C7 as stated: in inline mode a scalar-returning getter
yields a response column of length 1, which does not equal the active batch
size 2 (2 ≥ 1). -/
theorem getResponses_scalar_counterexample :
    1 ≤ 2 ∧
    ((getResponsesSingleThread [AttrVal.scalar 5]).getD 0 []).length = 1 ∧
    ((1 : Nat) = 2 → False) := by
  decide

/-- **C7** (amended).  A scalar getter result is wrapped into a one-element
list — never broadcast — so its assembled column always has length 1 and
aligns with the active batch size exactly when that batch size is 1. -/
theorem getResponses_scalar_column_length (results : List AttrVal) (i : Nat)
    (x : Int) (hx : results.getD i (AttrVal.vector []) = AttrVal.scalar x) :
    ((getResponsesSingleThread results).getD i []).length = 1 ∧
    (∀ batchSize : Nat, 1 ≤ batchSize →
      (((getResponsesSingleThread results).getD i []).length = batchSize ↔
        batchSize = 1)) := by
  have hlen : ((getResponsesSingleThread results).getD i []).length = 1 := by
    rw [getResponsesSingleThread, getD_map_wrapResponse, hx]
    rfl
  refine ⟨hlen, fun batchSize _ => ?_⟩
  rw [hlen]
  constructor <;> omega

/-- Witness for C7: a single scalar getter returning 7 yields the column
`[7]` of length 1. -/
theorem getResponses_scalar_column_length_witness :
    ((getResponsesSingleThread [AttrVal.scalar 7]).getD 0 []).length = 1 :=
  (getResponses_scalar_column_length [AttrVal.scalar 7] 0 7 (by decide)).1

/-- **C10.** `Experiment.__init__` passes its `save` argument positionally
into `KeyboardListener`'s `plotterObj` slot, leaving `saveFlag` at its
default `True`; hence `Experiment.save` persists at end of run even when the
experiment was constructed with `save = False` — unless the flag is toggled
externally during the run. -/
theorem experimentKeyboardListener_save_binding (save : Bool) :
    (experimentKeyboardListener save).plotter = PyVal.bool save ∧
    (experimentKeyboardListener save).saveFlag = true ∧
    experimentSaveRuns (experimentKeyboardListener save) = true ∧
    experimentSaveRuns (onReleaseToggleSave (experimentKeyboardListener save))
      = false := by
  cases save <;> exact ⟨rfl, rfl, rfl, rfl⟩

/-- The set calls of one batch target pairwise-distinct attribute names when
the declared variable names are distinct. -/
theorem setCalls_keys_nodup (vars : List String) (skip : List Bool)
    (pre : Option Batch) (b : Batch) (hvars : vars.Nodup) :
    ((setCalls vars skip pre b).map Prod.fst).Nodup := by
  unfold setCalls
  rw [List.map_map]
  show (List.map (fun i => vars.getD i "") (setCallIndices vars skip pre b)).Nodup
  have hnodupIdx : (setCallIndices vars skip pre b).Nodup :=
    (List.filter_sublist _).nodup (List.nodup_range _)
  refine List.Nodup.map_on ?_ hnodupIdx
  intro i hi j hj hgij
  have hi2 : i < vars.length :=
    List.mem_range.mp (List.mem_of_mem_filter hi)
  have hj2 : j < vars.length :=
    List.mem_range.mp (List.mem_of_mem_filter hj)
  rw [List.getD_eq_get vars "" hi2, List.getD_eq_get vars "" hj2] at hgij
  have := hvars.get_inj_iff.mp hgij
  simpa using this

/-- Set calls to pairwise-distinct attributes commute: any worker-scheduling
order produces the same instrument state as the declared order. -/
theorem applyCalls_perm (calls order : List (String × AttrVal))
    (hperm : order.Perm calls) (hnodup : (calls.map Prod.fst).Nodup)
    (s : InstrState) : applyCalls order s = applyCalls calls s := by
  unfold applyCalls
  refine hperm.foldl_eq' ?_ s
  intro x hx y hy z
  by_cases hxy : x.1 = y.1
  · have hx2 : x ∈ calls := hperm.subset hx
    have hy2 : y ∈ calls := hperm.subset hy
    have : x = y := List.inj_on_of_nodup_map hnodup hx2 hy2 hxy
    rw [this]
  · funext n
    show setAttr (setAttr z x.1 x.2) y.1 y.2 n =
      setAttr (setAttr z y.1 y.2) x.1 x.2 n
    unfold setAttr
    by_cases h1 : n = y.1
    · by_cases h2 : n = x.1
      · exact absurd (h2.symm.trans h1) hxy
      · rw [if_pos h1, if_neg h2, if_pos h1]
    · by_cases h2 : n = x.1
      · rw [if_neg h1, if_pos h2, if_pos h2]
      · rw [if_neg h1, if_neg h2, if_neg h2, if_neg h1]

/-- The threaded run equals the inline run batch by batch, for any
permutation schedule. -/
theorem runMulti_eq_runSingle (vars : List String) (skip : List Bool)
    (responses : List String)
    (sched : Option Batch → Batch → List (String × AttrVal))
    (hvars : vars.Nodup)
    (hsched : ∀ pre b, (sched pre b).Perm (setCalls vars skip pre b)) :
    ∀ (batches : List Batch) (pre : Option Batch) (s : InstrState),
      runMultiThread responses sched batches pre s =
        runSingleThread vars skip responses batches pre s := by
  intro batches
  induction batches with
  | nil => intro pre s; rfl
  | cons b bs ih =>
    intro pre s
    have hstate : applyCalls (sched pre b) s =
        applyCalls (setCalls vars skip pre b) s :=
      applyCalls_perm _ _ (hsched pre b)
        (setCalls_keys_nodup vars skip pre b hvars) s
    simp only [runMultiThread, runSingleThread]
    rw [hstate, ih]

/-- **C9.** For deterministic, side-effect-free setters and getters (each
set call touches only its own attribute, each get reads the barrier state),
the threaded I/O mode — whose workers perform the same non-skipped set calls
as inline mode in an arbitrary scheduler order `sched`, with the response
reads gated behind the completion-counter barrier — produces the identical
per-iteration stream and hence the identical ResultTable as inline mode:
same rows, same order, same values. -/
theorem threaded_inline_equivalence (vars : List String) (skip : List Bool)
    (responses : List String)
    (sched : Option Batch → Batch → List (String × AttrVal))
    (hvars : vars.Nodup)
    (hsched : ∀ pre b, (sched pre b).Perm (setCalls vars skip pre b))
    (batches : List Batch) (s0 : InstrState) :
    runMultiThread responses sched batches none s0 =
      runSingleThread vars skip responses batches none s0 ∧
    resultTable (runMultiThread responses sched batches none s0) =
      resultTable (runSingleThread vars skip responses batches none s0) := by
  have h := runMulti_eq_runSingle vars skip responses sched hvars hsched
    batches none s0
  exact ⟨h, by rw [h]⟩

/-- Witness for C9: two variables, one response, two one-row batches, with a
scheduler that reverses the declared set order; both modes agree. -/
theorem threaded_inline_equivalence_witness :
    runMultiThread ["r"]
        (fun pre b => (setCalls ["a", "b"] [false, false] pre b).reverse)
        [[[1, 2]], [[3, 4]]] none (fun _ => AttrVal.scalar 0) =
      runSingleThread ["a", "b"] [false, false] ["r"] [[[1, 2]], [[3, 4]]]
        none (fun _ => AttrVal.scalar 0) :=
  (threaded_inline_equivalence ["a", "b"] [false, false] ["r"]
    (fun pre b => (setCalls ["a", "b"] [false, false] pre b).reverse)
    (by decide) (fun pre b => List.reverse_perm _) [[[1, 2]], [[3, 4]]]
    (fun _ => AttrVal.scalar 0)).1

/-- Suffixing `" (Read)"` is injective on parameter names. -/
theorem appendRead_injective :
    Function.Injective fun s : String => s ++ " (Read)" := by
  intro a b h
  apply String.ext
  have hd := congrArg String.data h
  simp only [String.data_append] at hd
  exact (List.append_left_inj _).mp hd

/-- A dict assignment with a fresh key appends the pair. -/
theorem dictInsert_of_fresh (d : List (String × String)) (k v : String)
    (h : ∀ kv ∈ d, kv.1 ≠ k) : dictInsert d k v = d ++ [(k, v)] := by
  unfold dictInsert
  have hc : d.any (fun kv => kv.1 == k) = false := by
    rw [List.any_eq_false]
    intro kv hkv
    simpa using h kv hkv
  simp [hc]

/-- Folding dict assignments over pairwise-fresh keys appends them all. -/
theorem foldl_dictInsert_fresh :
    ∀ (xs d : List (String × String)),
      (∀ p ∈ xs, ∀ q ∈ d, p.1 ≠ q.1) → (xs.map Prod.fst).Nodup →
      xs.foldl (fun acc kv => dictInsert acc kv.1 kv.2) d = d ++ xs := by
  intro xs
  induction xs with
  | nil => intro d _ _; simp
  | cons a t ih =>
    intro d hdisj hnodup
    rw [List.map_cons, List.nodup_cons] at hnodup
    simp only [List.foldl_cons]
    have hins : dictInsert d a.1 a.2 = d ++ [a] :=
      dictInsert_of_fresh d a.1 a.2 fun kv hkv =>
        (hdisj a (List.mem_cons_self a t) kv hkv).symm
    have hdisj2 : ∀ p ∈ t, ∀ q ∈ d ++ [a], p.1 ≠ q.1 := by
      intro p hp q hq
      rcases List.mem_append.mp hq with hq | hq
      · exact hdisj p (List.mem_cons_of_mem a hp) q hq
      · rw [List.mem_singleton.mp hq]
        intro hpq
        exact hnodup.1 (by rw [← hpq]; exact List.mem_map_of_mem Prod.fst hp)
    rw [hins, ih (d ++ [a]) hdisj2 hnodup.2, List.append_assoc,
      List.singleton_append]

/-- The conditional `(Read)`-entry fold of `_generateHeader` equals a plain
dict-assignment fold over the filtered, `(Read)`-suffixed read-back pairs. -/
theorem foldl_read_inserts {V : Type} [DecidableEq V] (strV : V → String)
    (parameters : List (String × V)) :
    ∀ (xs : List (String × V)) (d : List (String × String)),
      xs.foldl (fun d2 kv =>
        if paramsLookup parameters kv.1 = some kv.2 then d2
        else dictInsert d2 (kv.1 ++ " (Read)") (strV kv.2)) d =
      ((xs.filter fun kv =>
          ! decide (paramsLookup parameters kv.1 = some kv.2)).map
        fun kv => (kv.1 ++ " (Read)", strV kv.2)).foldl
        (fun acc kv => dictInsert acc kv.1 kv.2) d := by
  intro xs
  induction xs with
  | nil => intro d; rfl
  | cons a t ih =>
    intro d
    simp only [List.foldl_cons, List.filter_cons]
    by_cases hp : paramsLookup parameters a.1 = some a.2
    · rw [if_pos hp]
      have hb : (! decide (paramsLookup parameters a.1 = some a.2)) = false := by
        simp [hp]
      rw [hb]
      simp only [Bool.false_eq_true, if_false]
      exact ih d
    · rw [if_neg hp]
      have hb : (! decide (paramsLookup parameters a.1 = some a.2)) = true := by
        simp [hp]
      rw [hb]
      simp only [if_true, List.map_cons, List.foldl_cons]
      exact ih _

/-- With distinct parameter names, `self.parameters[k]` is the value paired
with `k`. -/
theorem paramsLookup_eq_of_mem {V : Type} (parameters : List (String × V))
    (hKeys : (parameters.map Prod.fst).Nodup) (k : String) (v : V)
    (hm : (k, v) ∈ parameters) : paramsLookup parameters k = some v := by
  induction parameters with
  | nil => simp at hm
  | cons a t ih =>
    rw [List.map_cons, List.nodup_cons] at hKeys
    rcases List.mem_cons.mp hm with h | h
    · subst h
      unfold paramsLookup
      rw [List.find?_cons_of_pos _ (by simp)]
      rfl
    · have hak : ¬ ((fun kv : String × V => kv.1 == k) a = true) := by
        intro hk
        have h2 : a.1 = k := by simpa using hk
        apply hKeys.1
        rw [h2]
        exact List.mem_map_of_mem Prod.fst h
      have hfind : List.find? (fun kv : String × V => kv.1 == k) (a :: t) =
          List.find? (fun kv : String × V => kv.1 == k) t :=
        List.find?_cons_of_neg _ hak
      unfold paramsLookup
      rw [hfind]
      exact ih hKeys.2 h

theorem countKey_append (a b : List (String × String)) (k : String) :
    countKey (a ++ b) k = countKey a k + countKey b k := by
  simp [countKey, List.filter_append]

theorem countKey_eq_count (l : List (String × String)) (k : String) :
    countKey l k = (l.map Prod.fst).count k := by
  induction l with
  | nil => rfl
  | cons a t ih =>
    by_cases h : a.1 = k <;>
      simp [countKey, List.filter_cons, List.count_cons, h, ← ih,
        Nat.add_comm, beq_iff_eq] <;> omega

/-- Closed form of the header dict under collision-free naming: the set
lines in parameter order, then the `(Read)` lines of the differing read-backs
in parameter order, then the `completed` entry. -/
theorem generateHeaderDict_eq {V : Type} [DecidableEq V] (strV : V → String)
    (parameters : List (String × V)) (readAttr : String → V)
    (completed : Bool)
    (hKeys : (parameters.map Prod.fst).Nodup)
    (hNoRead : ∀ p ∈ parameters.map Prod.fst, ∀ q ∈ parameters.map Prod.fst,
      p ++ " (Read)" ≠ q)
    (hNoCompleted : "completed" ∉ parameters.map Prod.fst)
    (hNoCompletedRead : ∀ p ∈ parameters.map Prod.fst,
      p ++ " (Read)" ≠ "completed") :
    generateHeaderDict strV parameters readAttr completed =
      (parameters.map fun kv => (kv.1, strV kv.2)) ++
      (((getParametersSingleThread parameters readAttr).filter fun kv =>
          ! decide (paramsLookup parameters kv.1 = some kv.2)).map
        fun kv => (kv.1 ++ " (Read)", strV kv.2)) ++
      [("completed", pyStr completed)] := by
  have hkeys1 :
      ((parameters.map fun kv => (kv.1, strV kv.2)).map Prod.fst) =
        parameters.map Prod.fst := by
    rw [List.map_map]; rfl
  have hprkeys :
      ((getParametersSingleThread parameters readAttr).map Prod.fst) =
        parameters.map Prod.fst := by
    unfold getParametersSingleThread; rw [List.map_map]; rfl
  have hd1 : parameters.foldl (fun d kv => dictInsert d kv.1 (strV kv.2)) [] =
      parameters.map fun kv => (kv.1, strV kv.2) := by
    have h := foldl_dictInsert_fresh
      (parameters.map fun kv => (kv.1, strV kv.2)) []
      (fun p _ q hq => absurd hq (List.not_mem_nil q))
      (by rw [hkeys1]; exact hKeys)
    rw [List.nil_append] at h
    exact (List.foldl_map _ _ _ _).symm.trans h
  have hfilterkeysNodup :
      ((((getParametersSingleThread parameters readAttr).filter fun kv =>
        ! decide (paramsLookup parameters kv.1 = some kv.2)).map
          Prod.fst)).Nodup := by
    refine List.Nodup.sublist ((List.filter_sublist _).map Prod.fst) ?_
    rw [hprkeys]; exact hKeys
  have hmemfilterkeys : ∀ s, s ∈
      (((getParametersSingleThread parameters readAttr).filter fun kv =>
        ! decide (paramsLookup parameters kv.1 = some kv.2)).map Prod.fst) →
      s ∈ parameters.map Prod.fst := by
    intro s hs
    rw [← hprkeys]
    obtain ⟨kv, hkv, hfst⟩ := List.mem_map.mp hs
    exact hfst ▸ List.mem_map_of_mem Prod.fst (List.mem_of_mem_filter hkv)
  have hreadkeys :
      ((((getParametersSingleThread parameters readAttr).filter fun kv =>
        ! decide (paramsLookup parameters kv.1 = some kv.2)).map
          fun kv => (kv.1 ++ " (Read)", strV kv.2)).map Prod.fst) =
      ((((getParametersSingleThread parameters readAttr).filter fun kv =>
        ! decide (paramsLookup parameters kv.1 = some kv.2)).map
          Prod.fst).map fun s => s ++ " (Read)") := by
    rw [List.map_map, List.map_map]; rfl
  simp only [generateHeaderDict]
  rw [hd1, foldl_read_inserts strV parameters]
  rw [foldl_dictInsert_fresh _ _ ?hdisj ?hnodup]
  case hdisj =>
    intro p hp q hq
    obtain ⟨kv, hkv, hpf⟩ := List.mem_map.mp hp
    obtain ⟨r, hr, hqf⟩ := List.mem_map.mp hq
    rw [← hpf, ← hqf]
    show kv.1 ++ " (Read)" ≠ r.1
    refine hNoRead kv.1 ?_ r.1 (List.mem_map_of_mem Prod.fst hr)
    rw [← hprkeys]
    exact List.mem_map_of_mem Prod.fst (List.mem_of_mem_filter hkv)
  case hnodup =>
    rw [hreadkeys]
    exact List.Nodup.map appendRead_injective hfilterkeysNodup
  rw [dictInsert_of_fresh _ _ _ ?hfresh]
  case hfresh =>
    intro kv hkv
    rcases List.mem_append.mp hkv with hkv | hkv
    · obtain ⟨r, hr, hf⟩ := List.mem_map.mp hkv
      rw [← hf]
      intro hch
      exact hNoCompleted (hch ▸ List.mem_map_of_mem Prod.fst hr)
    · obtain ⟨r, hr, hf⟩ := List.mem_map.mp hkv
      rw [← hf]
      show r.1 ++ " (Read)" ≠ "completed"
      refine hNoCompletedRead r.1 ?_
      rw [← hprkeys]
      exact List.mem_map_of_mem Prod.fst (List.mem_of_mem_filter hr)

/-- **C8.** Under collision-free parameter naming, the header holds exactly
one line for every parameter; exactly one extra `parameter + ' (Read)'` line
when and only when the read-back value differs from the set value; and
exactly one `completed` entry. -/
theorem generateHeaderDict_line_counts {V : Type} [DecidableEq V]
    (strV : V → String) (parameters : List (String × V))
    (readAttr : String → V) (completed : Bool)
    (hKeys : (parameters.map Prod.fst).Nodup)
    (hNoRead : ∀ p ∈ parameters.map Prod.fst, ∀ q ∈ parameters.map Prod.fst,
      p ++ " (Read)" ≠ q)
    (hNoCompleted : "completed" ∉ parameters.map Prod.fst)
    (hNoCompletedRead : ∀ p ∈ parameters.map Prod.fst,
      p ++ " (Read)" ≠ "completed")
    (pname : String) (pval : V) (hp : (pname, pval) ∈ parameters) :
    countKey (generateHeaderDict strV parameters readAttr completed) pname
        = 1 ∧
    countKey (generateHeaderDict strV parameters readAttr completed)
        (pname ++ " (Read)") = (if readAttr pname = pval then 0 else 1) ∧
    countKey (generateHeaderDict strV parameters readAttr completed)
        "completed" = 1 := by
  have hpk : pname ∈ parameters.map Prod.fst :=
    List.mem_map_of_mem Prod.fst hp
  have hkeys1 :
      ((parameters.map fun kv => (kv.1, strV kv.2)).map Prod.fst) =
        parameters.map Prod.fst := by
    rw [List.map_map]; rfl
  have hprkeys :
      ((getParametersSingleThread parameters readAttr).map Prod.fst) =
        parameters.map Prod.fst := by
    unfold getParametersSingleThread; rw [List.map_map]; rfl
  have hfilterkeysNodup :
      ((((getParametersSingleThread parameters readAttr).filter fun kv =>
        ! decide (paramsLookup parameters kv.1 = some kv.2)).map
          Prod.fst)).Nodup := by
    refine List.Nodup.sublist ((List.filter_sublist _).map Prod.fst) ?_
    rw [hprkeys]; exact hKeys
  have hreadkeys :
      ((((getParametersSingleThread parameters readAttr).filter fun kv =>
        ! decide (paramsLookup parameters kv.1 = some kv.2)).map
          fun kv => (kv.1 ++ " (Read)", strV kv.2)).map Prod.fst) =
      ((((getParametersSingleThread parameters readAttr).filter fun kv =>
        ! decide (paramsLookup parameters kv.1 = some kv.2)).map
          Prod.fst).map fun s => s ++ " (Read)") := by
    rw [List.map_map, List.map_map]; rfl
  have hmemfilterkeys : ∀ s, s ∈
      (((getParametersSingleThread parameters readAttr).filter fun kv =>
        ! decide (paramsLookup parameters kv.1 = some kv.2)).map Prod.fst) →
      s ∈ parameters.map Prod.fst := by
    intro s hs
    rw [← hprkeys]
    obtain ⟨kv, hkv, hfst⟩ := List.mem_map.mp hs
    exact hfst ▸ List.mem_map_of_mem Prod.fst (List.mem_of_mem_filter hkv)
  rw [generateHeaderDict_eq strV parameters readAttr completed hKeys hNoRead
    hNoCompleted hNoCompletedRead]
  rw [countKey_append, countKey_append, countKey_append, countKey_append,
    countKey_append, countKey_append]
  have hmemfilter_iff : pname ∈
      (((getParametersSingleThread parameters readAttr).filter fun kv =>
        ! decide (paramsLookup parameters kv.1 = some kv.2)).map Prod.fst) ↔
      ¬ readAttr pname = pval := by
    constructor
    · intro hs
      obtain ⟨kv, hkv, hfst⟩ := List.mem_map.mp hs
      have hkv2 := List.mem_of_mem_filter hkv
      obtain ⟨r, hr, hkveq⟩ := List.mem_map.mp hkv2
      have hkval : kv = (pname, readAttr pname) := by
        rw [← hkveq] at hfst ⊢
        simp only at hfst ⊢
        rw [hfst]
      have hpred := List.of_mem_filter hkv
      rw [hkval] at hpred
      simp only [Bool.not_eq_true', decide_eq_false_iff_not] at hpred
      rw [paramsLookup_eq_of_mem parameters hKeys pname pval hp] at hpred
      intro hcon
      exact hpred (by rw [hcon])
    · intro hne
      have hmem2 : (pname, readAttr pname) ∈
          getParametersSingleThread parameters readAttr := by
        unfold getParametersSingleThread
        exact List.mem_map.mpr ⟨(pname, pval), hp, rfl⟩
      refine List.mem_map.mpr ⟨(pname, readAttr pname), ?_, rfl⟩
      refine List.mem_filter.mpr ⟨hmem2, ?_⟩
      simp only [Bool.not_eq_true', decide_eq_false_iff_not]
      rw [paramsLookup_eq_of_mem parameters hKeys pname pval hp]
      intro hcon
      exact hne (by injection hcon with h2; rw [h2])
  refine ⟨?_, ?_, ?_⟩
  · -- exactly one set line for pname, no (Read) line keyed pname,
    -- and the completed entry is not keyed pname
    have h1 : countKey (parameters.map fun kv => (kv.1, strV kv.2)) pname
        = 1 := by
      rw [countKey_eq_count, hkeys1]
      exact List.count_eq_one_of_mem hKeys hpk
    have h2 : countKey
        (((getParametersSingleThread parameters readAttr).filter fun kv =>
          ! decide (paramsLookup parameters kv.1 = some kv.2)).map
          fun kv => (kv.1 ++ " (Read)", strV kv.2)) pname = 0 := by
      rw [countKey_eq_count, hreadkeys]
      refine List.count_eq_zero_of_not_mem ?_
      intro hmem
      obtain ⟨s, hs, hseq⟩ := List.mem_map.mp hmem
      exact hNoRead s (hmemfilterkeys s hs) pname hpk hseq
    have h3 : countKey [("completed", pyStr completed)] pname = 0 := by
      have hne : ¬ ((("completed", pyStr completed).1 == pname) = true) := by
        simp only [beq_iff_eq]
        intro hc
        rw [← hc] at hpk
        exact hNoCompleted hpk
      simp [countKey, List.filter_cons, hne]
    omega
  · have h1 : countKey (parameters.map fun kv => (kv.1, strV kv.2))
        (pname ++ " (Read)") = 0 := by
      rw [countKey_eq_count, hkeys1]
      refine List.count_eq_zero_of_not_mem ?_
      intro hmem
      exact hNoRead pname hpk (pname ++ " (Read)") hmem rfl
    have h2 : countKey
        (((getParametersSingleThread parameters readAttr).filter fun kv =>
          ! decide (paramsLookup parameters kv.1 = some kv.2)).map
          fun kv => (kv.1 ++ " (Read)", strV kv.2)) (pname ++ " (Read)") =
        (if readAttr pname = pval then 0 else 1) := by
      rw [countKey_eq_count, hreadkeys]
      rw [show (pname ++ " (Read)") =
        (fun s => s ++ " (Read)") pname from rfl]
      rw [List.count_map_of_injective _ _ appendRead_injective]
      by_cases hcase : readAttr pname = pval
      · rw [if_pos hcase]
        refine List.count_eq_zero_of_not_mem ?_
        intro hmem
        exact (hmemfilter_iff.mp hmem) hcase
      · rw [if_neg hcase]
        exact List.count_eq_one_of_mem hfilterkeysNodup
          (hmemfilter_iff.mpr hcase)
    have h3 : countKey [("completed", pyStr completed)]
        (pname ++ " (Read)") = 0 := by
      have hne : ¬ ((("completed", pyStr completed).1 ==
          pname ++ " (Read)") = true) := by
        simp only [beq_iff_eq]
        intro hc
        exact hNoCompletedRead pname hpk hc.symm
      simp [countKey, List.filter_cons, hne]
    omega
  · have h1 : countKey (parameters.map fun kv => (kv.1, strV kv.2))
        "completed" = 0 := by
      rw [countKey_eq_count, hkeys1]
      exact List.count_eq_zero_of_not_mem hNoCompleted
    have h2 : countKey
        (((getParametersSingleThread parameters readAttr).filter fun kv =>
          ! decide (paramsLookup parameters kv.1 = some kv.2)).map
          fun kv => (kv.1 ++ " (Read)", strV kv.2)) "completed" = 0 := by
      rw [countKey_eq_count, hreadkeys]
      refine List.count_eq_zero_of_not_mem ?_
      intro hmem
      obtain ⟨s, hs, hseq⟩ := List.mem_map.mp hmem
      exact hNoCompletedRead s (hmemfilterkeys s hs) hseq
    have h3 : countKey [("completed", pyStr completed)] "completed" = 1 := by
      simp [countKey]
    omega

/-- Witness for C8: parameters `p1 = 1` (read back `1`: one line, no
`(Read)` line) and `p2 = 2` (read back `3`: one set line and one `(Read)`
line), plus the `completed` entry. -/
theorem generateHeaderDict_line_counts_witness :
    (countKey (generateHeaderDict toString [("p1", (1 : Int)), ("p2", 2)]
        (fun k => if k = "p2" then 3 else 1) true) "p1" = 1 ∧
      countKey (generateHeaderDict toString [("p1", (1 : Int)), ("p2", 2)]
        (fun k => if k = "p2" then 3 else 1) true) ("p1" ++ " (Read)") =
        (if (if "p1" = "p2" then (3 : Int) else 1) = 1 then 0 else 1) ∧
      countKey (generateHeaderDict toString [("p1", (1 : Int)), ("p2", 2)]
        (fun k => if k = "p2" then 3 else 1) true) "completed" = 1) ∧
    (countKey (generateHeaderDict toString [("p1", (1 : Int)), ("p2", 2)]
        (fun k => if k = "p2" then 3 else 1) true) "p2" = 1 ∧
      countKey (generateHeaderDict toString [("p1", (1 : Int)), ("p2", 2)]
        (fun k => if k = "p2" then 3 else 1) true) ("p2" ++ " (Read)") =
        (if (if "p2" = "p2" then (3 : Int) else 1) = 2 then 0 else 1) ∧
      countKey (generateHeaderDict toString [("p1", (1 : Int)), ("p2", 2)]
        (fun k => if k = "p2" then 3 else 1) true) "completed" = 1) := by
  constructor
  · exact generateHeaderDict_line_counts toString [("p1", (1 : Int)), ("p2", 2)]
      (fun k => if k = "p2" then 3 else 1) true (by decide) (by decide)
      (by decide) (by decide) "p1" 1 (by decide)
  · exact generateHeaderDict_line_counts toString [("p1", (1 : Int)), ("p2", 2)]
      (fun k => if k = "p2" then 3 else 1) true (by decide) (by decide)
      (by decide) (by decide) "p2" 2 (by decide)

end Sweep
